import Mathlib

/-!
Verification of the atef configuration preparation and execution engine
(`src/atef/config.py`) against its natural-language specification.

The Python source is shallowly embedded: pure functions become Lean
functions, the async leaf/group `compare` methods become functions of the
already-awaited child outcomes, and exceptions become explicit sum types.
Modules of the repository that are not part of the provided source
(`atef.enums`, `atef.util`, `atef.check`, `atef.tools`) are modelled from
the specification; each such definition is marked `Modelled from the spec`.
-/

namespace Atef

/-- Modelled from the spec (the `atef.enums` module is not in the provided
source): the ordered severity scale
`success < warning < error < internal_error`. -/
inductive Severity where
  | success
  | warning
  | error
  | internal_error
deriving DecidableEq, Repr

/-- The integer value underlying each `Severity` enum member, in the
spec's ascending order. -/
def Severity.toNat : Severity → Nat
  | .success => 0
  | .warning => 1
  | .error => 2
  | .internal_error => 3

/-- Python `max` on two severities (comparison by enum value). -/
def Severity.max (a b : Severity) : Severity :=
  if a.toNat ≤ b.toNat then b else a

/-- Python `min` on two severities (comparison by enum value). -/
def Severity.min (a b : Severity) : Severity :=
  if a.toNat ≤ b.toNat then a else b

/-- Modelled from the spec (`atef.util` is not in the provided source):
the maximum severity of a list, with the bottom element `success` as the
value on an empty list. -/
def get_maximum_severity (severities : List Severity) : Severity :=
  severities.foldl Severity.max .success

/-- Modelled from the spec (`atef.util` is not in the provided source):
the minimum severity of a list, with the top element `internal_error` as
the value on an empty list. -/
def get_minimum_severity (severities : List Severity) : Severity :=
  severities.foldl Severity.min .internal_error

/-- Modelled from the spec (`atef.check` is not in the provided source):
a `Result` record is a severity plus an optional free-text reason. -/
structure Result where
  severity : Severity := .success
  reason : Option String := none
deriving DecidableEq, Repr

/-- The Python exception classes distinguished by `config.py`:
`PreparedComparison.compare` catches `TimeoutError`,
`asyncio.TimeoutError` and `ophyd`'s `ConnectionTimeoutError` specially;
`PreparedToolComparison._compare` catches `KeyError`;
`PreparedSignalComparison.from_device` raises `AttributeError`. -/
inductive ExnClass where
  | timeoutError
  | asyncioTimeoutError
  | connectionTimeoutError
  | keyError
  | attributeError
  | valueError
  | generic (name : String)
deriving DecidableEq, Repr

/-- `ex.__class__.__name__` for the modelled exception classes. -/
def ExnClass.name : ExnClass → String
  | .timeoutError => "TimeoutError"
  | .asyncioTimeoutError => "TimeoutError"
  | .connectionTimeoutError => "ConnectionTimeoutError"
  | .keyError => "KeyError"
  | .attributeError => "AttributeError"
  | .valueError => "ValueError"
  | .generic n => n

/-- Whether the exception is caught by
`except (TimeoutError, asyncio.TimeoutError, ConnectionTimeoutError)`. -/
def ExnClass.isTimeoutOrConnection : ExnClass → Bool
  | .timeoutError => true
  | .asyncioTimeoutError => true
  | .connectionTimeoutError => true
  | _ => false

/-- An exception instance: its class plus its `str(ex)` message. -/
structure Exn where
  cls : ExnClass
  msg : String
deriving DecidableEq, Repr

/-- An entry of the `results` list passed to `_summarize_result_severity`:
`Union[Result, Exception, None]`.  `pynone` embeds Python `None`. -/
inductive ResultEntry where
  | result (r : Result)
  | exc (e : Exn)
  | pynone
deriving DecidableEq, Repr

/-- `result is None or isinstance(result, Exception)`. -/
def ResultEntry.isAbsentOrException : ResultEntry → Bool
  | .result _ => false
  | .exc _ => true
  | .pynone => true

/-- `result.severity` for entries that are `Result` instances. -/
def ResultEntry.severity? : ResultEntry → Option Severity
  | .result r => some r.severity
  | _ => none

/-- Modelled from the spec (the `atef.enums` module is not in the provided
source): `GroupResultMode` is a `str`-valued enum with exactly the members
`all_ = "all"` and `any_ = "any"`; the mode argument is embedded as its
underlying string so that the code's explicit fall-through branch for an
unrecognized mode value remains reachable, exactly as it is in Python. -/
def GroupResultMode.all_ : String := "all"

/-- Modelled from the spec: the `any` member of `GroupResultMode`. -/
def GroupResultMode.any_ : String := "any"

/-- `config.py` lines 290-322: summarize all results based on the
configured mode. -/
def _summarize_result_severity (mode : String)
    (results : List ResultEntry) : Severity :=
  if results.any (fun r => r.isAbsentOrException) then
    .error
  else
    let severities := results.filterMap ResultEntry.severity?
    if mode = GroupResultMode.all_ then
      get_maximum_severity severities
    else if mode = GroupResultMode.any_ then
      get_minimum_severity severities
    else
      .internal_error

/-- A Python runtime value as acquired from a signal.  `pynone` embeds the
`None` sentinel; `int 0`, `str ""` and `bool false` are valid falsy values
distinct from it (the source tests `data is None`, an identity check). -/
inductive Value where
  | pynone
  | int (n : Int)
  | str (s : String)
  | bool (b : Bool)
deriving DecidableEq, Repr

/-- Python `repr` of a string (as interpolated by `f"{identifier!r}"`). -/
def pyRepr (s : String) : String :=
  "\x27" ++ s ++ "\x27"

/-- Modelled from the spec (the `atef.check` module is not in the provided
source): a comparison predicate exposes `compare(value, identifier) ->
Result` (which may raise, embedded as `Except`), plus the two policy
fields `if_disconnected` and `severity_on_failure` consumed by the leaves,
the reduction settings forwarded to the cache, and its `str()` form used
when it is interpolated into reason messages. -/
structure Comparison where
  if_disconnected : Severity := .error
  severity_on_failure : Severity := .error
  compare : Value → String → Except Exn Result
  reduce_period : Option Int := none
  reduce_method : String := "average"
  string : Option Bool := none
  reprStr : String := "Comparison()"

/-- The outcome of `await self.get_data_async()` inside
`PreparedComparison.compare`: either the acquired data or a raised
exception. -/
inductive DataOutcome where
  | value (v : Value)
  | raises (e : Exn)
deriving DecidableEq, Repr

/-- `config.py` lines 821-864, `PreparedComparison.compare`: run the
comparison and return the `Result`.  The awaited `get_data_async` call is
embedded as the `fetch` outcome and the subclass `_compare` hook as the
`sub` function (which may raise, embedded as `Except`). -/
def PreparedComparison.compareResult (identifier : String)
    (comparison : Comparison) (sub : Value → Except Exn Result)
    (fetch : DataOutcome) : Result :=
  match fetch with
  | .raises ex =>
    if ex.cls.isTimeoutOrConnection then
      { severity := comparison.if_disconnected,
        reason :=
          some ("Unable to retrieve data for comparison: " ++ identifier) }
    else
      { severity := .internal_error,
        reason :=
          some ("Getting data for " ++ pyRepr identifier ++ " comparison "
            ++ comparison.reprStr ++ " raised " ++ ex.cls.name ++ ": "
            ++ ex.msg) }
  | .value data =>
    match sub data with
    | .ok result => result
    | .error ex =>
      { severity := .internal_error,
        reason :=
          some ("Failed to run " ++ pyRepr identifier ++ " comparison "
            ++ comparison.reprStr ++ " raised " ++ ex.cls.name ++ ": "
            ++ ex.msg ++ " ") }

/-- `config.py` lines 923-941, `PreparedSignalComparison._compare`: run
the comparison with the already-acquired data; the `None` sentinel
short-circuits with the `if_disconnected` severity. -/
def PreparedSignalComparison._compare (identifier : String)
    (comparison : Comparison) (data : Value) : Except Exn Result :=
  if data = .pynone then
    .ok
      { severity := comparison.if_disconnected,
        reason :=
          some ("No data available for signal " ++ pyRepr identifier
            ++ " in comparison " ++ comparison.reprStr) }
  else
    comparison.compare data identifier

/-- Modelled from the spec (the `atef.tools` module is not in the provided
source): a tool result bundle supports `lookup(key) -> value` failing with
a key-not-found error; embedded as an association list, with `none`
standing for the raised `KeyError`. -/
def get_result_value_by_key (data : List (String × Value))
    (key : String) : Option Value :=
  data.lookup key

/-- `config.py` lines 1028-1051, `PreparedToolComparison._compare`: look
up the configured result key in the tool's result bundle; a `KeyError` is
caught and converted to a `severity_on_failure` result.  `toolStr` and
`nameStr` are the `str()` forms of `self.tool` and `self.name`
interpolated into the reason. -/
def PreparedToolComparison._compare (identifier : String)
    (comparison : Comparison) (toolStr nameStr : String)
    (data : List (String × Value)) : Except Exn Result :=
  match get_result_value_by_key data identifier with
  | none =>
    .ok
      { severity := comparison.severity_on_failure,
        reason :=
          some ("Provided key is invalid for tool result " ++ toolStr
            ++ " " ++ pyRepr identifier ++ " (" ++ nameStr ++ "): "
            ++ pyRepr identifier ++ " (in comparison "
            ++ comparison.reprStr ++ ")") }
  | some value =>
    comparison.compare value identifier

/-- The configuration tree of `config.py`: a `ConfigurationGroup` owns an
ordered list of child configurations and a result mode;
`DeviceConfiguration` owns device names, an attr→comparisons mapping and a
shared comparison list; `PVConfiguration` is keyed by PV name;
`ToolConfiguration` owns one tool plus a result-key→comparisons mapping.
The `name`/`description`/`tags` metadata fields are not consumed by any
modelled operation and are omitted.  Python dictionaries are embedded as
ordered association lists (insertion order, as iterated by `.items()`). -/
inductive Config where
  | group (mode : String) (configs : List Config)
  | device (devices : List String)
      (by_attr : List (String × List Comparison)) (shared : List Comparison)
  | pv (by_pv : List (String × List Comparison)) (shared : List Comparison)
  | tool (toolName : String)
      (by_attr : List (String × List Comparison)) (shared : List Comparison)

/-- A parent back-reference in the prepared tree.  Python object identity
is embedded as the node's path of child indices from the root; `file`
stands for the enclosing `PreparedFile`. -/
inductive PRef where
  | file
  | node (path : List Nat)
deriving DecidableEq, Repr

/-- A prepared leaf execution unit (`PreparedSignalComparison` or
`PreparedToolComparison`): an identifier, one comparison, a parent
back-reference, and the bound live handle (signal name or tool name). -/
structure PreparedLeaf where
  parent : PRef
  identifier : String
  comparison : Comparison
  name : Option String := none
  signal : Option String := none
  device : Option String := none
  tool : Option String := none

/-- A `FailedConfiguration` record: parent reference, the original
configuration, the failure result, and the underlying exception. -/
structure FailedConfiguration where
  parent : PRef
  config : Config
  reason : Result
  exception : Option Exn := none

/-- The prepared tree: `PreparedGroup` (child prepared configs plus a
`FailedConfiguration` list) and the three terminal prepared
configurations, each with its leaf comparisons plus a list of per-leaf
binding exceptions (`prepare_failures`).  `self` is the node's own Python
object identity, embedded as its path-based reference (it is what
`parent=prepared` passes to the node's children). -/
inductive Prepared where
  | group (self parent : PRef) (mode : String) (configs : List Prepared)
      (prepare_failures : List FailedConfiguration)
  | deviceCfg (self parent : PRef) (devices : List String)
      (comparisons : List PreparedLeaf) (prepare_failures : List Exn)
  | pvCfg (self parent : PRef) (comparisons : List PreparedLeaf)
      (prepare_failures : List Exn)
  | toolCfg (self parent : PRef) (toolName : String)
      (comparisons : List PreparedLeaf) (prepare_failures : List Exn)

/-- The `parent` field of any prepared configuration node. -/
def Prepared.parentRef : Prepared → PRef
  | .group _ p _ _ _ => p
  | .deviceCfg _ p _ _ _ => p
  | .pvCfg _ p _ _ => p
  | .toolCfg _ p _ _ _ => p

/-- The node's own identity (the reference its children hold to it). -/
def Prepared.selfRef : Prepared → PRef
  | .group s _ _ _ _ => s
  | .deviceCfg s _ _ _ _ => s
  | .pvCfg s _ _ _ => s
  | .toolCfg s _ _ _ _ => s

/-- `prepared_root.parent = ...` — reassignment of the `parent` field. -/
def Prepared.withParent : Prepared → PRef → Prepared
  | .group s _ m cs fs, p => .group s p m cs fs
  | .deviceCfg s _ d cs fs, p => .deviceCfg s p d cs fs
  | .pvCfg s _ cs fs, p => .pvCfg s p cs fs
  | .toolCfg s _ t cs fs, p => .toolCfg s p t cs fs

/-- The external collaborators consumed during preparation, at their §6
interface boundary: the happi device database
(`util.get_happi_device_by_name`), attribute lookup on a resolved device
(`getattr(device, attr)`, `None` when the attribute is absent), and tool
result-key validation (`tool.check_result_key`).  A resolved device is
embedded as its `device.name` string. -/
structure PrepEnv where
  get_happi_device_by_name : String → Except Exn String
  getattrSignal : String → String → Option String
  check_result_key : String → String → Except Exn Unit

/-- `config.py` lines 943-974, `PreparedSignalComparison.from_device`:
bind a device attribute to a leaf; a missing attribute raises
`AttributeError`. -/
def PreparedSignalComparison.from_device (env : PrepEnv) (parent : PRef)
    (devName attr : String) (comparison : Comparison) :
    Except Exn PreparedLeaf :=
  let full_attr := devName ++ "." ++ attr
  match env.getattrSignal devName attr with
  | none =>
    .error ⟨.attributeError,
      "Attribute " ++ full_attr ++ " does not exist on class Device"⟩
  | some signal =>
    .ok { parent := parent, identifier := full_attr,
          comparison := comparison, signal := some signal,
          device := some devName }

/-- `config.py` lines 976-997, `PreparedSignalComparison.from_pvname`:
bind a PV name to a leaf; the signal cache constructs the signal on
demand, so existence checks are deferred to fetch time. -/
def PreparedSignalComparison.from_pvname (parent : PRef) (pvname : String)
    (comparison : Comparison) : PreparedLeaf :=
  { parent := parent, identifier := pvname, comparison := comparison,
    signal := some pvname }

/-- `config.py` lines 1053-1096, `PreparedToolComparison.from_tool`:
validate the result key against the tool's schema
(`tool.check_result_key`, which raises on an invalid key). -/
def PreparedToolComparison.from_tool (env : PrepEnv) (parent : PRef)
    (toolName result_key : String) (comparison : Comparison) :
    Except Exn PreparedLeaf :=
  match env.check_result_key toolName result_key with
  | .error ex => .error ex
  | .ok _ =>
    .ok { parent := parent, identifier := result_key,
          comparison := comparison, tool := some toolName }

/-- The `try: ... append ... except Exception as ex: prepare_failures
.append(ex)` loop shared by the three terminal `from_config` methods:
fold a binder over the items, partitioning bound leaves from binding
exceptions while preserving order; one bad item never aborts the rest. -/
def partitionBind {α : Type} (f : α → Except Exn PreparedLeaf) :
    List α → List PreparedLeaf × List Exn
  | [] => ([], [])
  | x :: rest =>
    let (ps, es) := partitionBind f rest
    match f x with
    | .ok p => (p :: ps, es)
    | .error e => (ps, e :: es)

/-- The `for device in devices: for attr, comparisons in by_attr.items():
for comparison in comparisons + shared:` iteration domain of
`PreparedDeviceConfiguration.from_config`, flattened in loop order. -/
def deviceItems (devices : List String)
    (by_attr : List (String × List Comparison))
    (shared : List Comparison) : List (String × String × Comparison) :=
  devices.flatMap fun d =>
    by_attr.flatMap fun p =>
      (p.2 ++ shared).map fun c => (d, p.1, c)

/-- The `for key, comparisons in by_attr.items(): for comparison in
comparisons + shared:` iteration domain of the PV and tool
`from_config` methods, flattened in loop order. -/
def keyItems (by_attr : List (String × List Comparison))
    (shared : List Comparison) : List (String × Comparison) :=
  by_attr.flatMap fun p =>
    (p.2 ++ shared).map fun c => (p.1, c)

/-- The `for dev_name in config.devices` resolution loop of
`PreparedDeviceConfiguration.from_config`: resolve every named device via
happi, returning on the first failure the failing name and exception. -/
def resolveDevices (env : PrepEnv) :
    List String → Except (String × Exn) (List String)
  | [] => .ok []
  | n :: rest =>
    match env.get_happi_device_by_name n with
    | .error ex => .error (n, ex)
    | .ok d =>
      match resolveDevices env rest with
      | .error e => .error e
      | .ok ds => .ok (d :: ds)

/-- `config.py` lines 576-638, `PreparedDeviceConfiguration.from_config`:
a device resolution failure returns a whole-node `FailedConfiguration`;
otherwise every device × attribute × comparison leaf is bound, with
per-leaf exceptions collected in `prepare_failures`.  `self` is the
path-based identity of the node under construction. -/
def PreparedDeviceConfiguration.from_config (env : PrepEnv)
    (parent self : PRef) (devices : List String)
    (by_attr : List (String × List Comparison))
    (shared : List Comparison) : Sum Prepared FailedConfiguration :=
  match resolveDevices env devices with
  | .error (devName, ex) =>
    .inr { parent := parent,
           config := .device devices by_attr shared,
           reason := { severity := .error,
                       reason :=
                         some ("Failed to load happi device: " ++ devName) },
           exception := some ex }
  | .ok devs =>
    let (comparisons, failures) :=
      partitionBind
        (fun t => PreparedSignalComparison.from_device env self t.1 t.2.1 t.2.2)
        (deviceItems devs by_attr shared)
    .inl (.deviceCfg self parent devs comparisons failures)

/-- `config.py` lines 668-707, `PreparedPVConfiguration.from_config`:
bind a leaf for every PV × comparison; `from_pvname` does not raise. -/
def PreparedPVConfiguration.from_config (parent self : PRef)
    (by_pv : List (String × List Comparison))
    (shared : List Comparison) : Prepared :=
  let (comparisons, failures) :=
    partitionBind
      (fun t => .ok (PreparedSignalComparison.from_pvname self t.1 t.2))
      (keyItems by_pv shared)
  .pvCfg self parent comparisons failures

/-- `config.py` lines 739-779, `PreparedToolConfiguration.from_config`:
bind a leaf for every result-key × comparison; key-validation exceptions
are collected in `prepare_failures`. -/
def PreparedToolConfiguration.from_config (env : PrepEnv)
    (parent self : PRef) (toolName : String)
    (by_attr : List (String × List Comparison))
    (shared : List Comparison) : Prepared :=
  let (comparisons, failures) :=
    partitionBind
      (fun t => PreparedToolComparison.from_tool env self toolName t.1 t.2)
      (keyItems by_attr shared)
  .toolCfg self parent toolName comparisons failures

mutual

/-- `config.py` lines 336-401, `PreparedConfiguration.from_config`:
dispatch on the configuration variant; only the device variant can return
a `FailedConfiguration`.  `path` is the node's position (child indices
from the root), standing in for Python object identity. -/
def PreparedConfiguration.from_config (env : PrepEnv) (path : List Nat)
    (parent : PRef) : Config → Sum Prepared FailedConfiguration
  | .pv by_pv shared =>
    .inl (PreparedPVConfiguration.from_config parent (.node path) by_pv shared)
  | .tool t by_attr shared =>
    .inl (PreparedToolConfiguration.from_config env parent (.node path) t
      by_attr shared)
  | .device devices by_attr shared =>
    PreparedDeviceConfiguration.from_config env parent (.node path) devices
      by_attr shared
  | .group mode cs =>
    let (ps, fs) := prepareChildren env path 0 cs
    .inl (.group (.node path) parent mode ps fs)

/-- The `for config in group.configs:` loop body of
`PreparedGroup.from_group` (`config.py` lines 467-477): prepare each
child in order; a `FailedConfiguration` child is appended to
`prepare_failures`, any other to `configs`.  `i` is the index of the
current child. -/
def prepareChildren (env : PrepEnv) (path : List Nat) (i : Nat) :
    List Config → List Prepared × List FailedConfiguration
  | [] => ([], [])
  | c :: rest =>
    match PreparedConfiguration.from_config env (path ++ [i]) (.node path) c with
    | .inl p =>
      (p :: (prepareChildren env path (i + 1) rest).1,
       (prepareChildren env path (i + 1) rest).2)
    | .inr f =>
      ((prepareChildren env path (i + 1) rest).1,
       f :: (prepareChildren env path (i + 1) rest).2)

end

/-- `config.py` lines 444-479, `PreparedGroup.from_group`: prepare each
child in order and assemble the prepared group. -/
def PreparedGroup.from_group (env : PrepEnv) (path : List Nat)
    (parent : PRef) (mode : String) (cs : List Config) : Prepared :=
  let (ps, fs) := prepareChildren env path 0 cs
  .group (.node path) parent mode ps fs

/-- A configuration file: version metadata (unmodelled) plus the
top-level configuration group. -/
structure ConfigurationFile where
  rootMode : String := GroupResultMode.all_
  rootConfigs : List Config := []

/-- A prepared file, holding the prepared root group (the cache, file and
client references are not consumed by the modelled claims). -/
structure PreparedFileS where
  root : Prepared

/-- `config.py` lines 210-238, `PreparedFile.from_config`: the root group
is prepared with the enclosing `PreparedFile` as its `parent`, and then
`prepared_root.parent = prepared_root` reassigns the root group's parent
to the root group itself. -/
def PreparedFile.from_config (env : PrepEnv) (file : ConfigurationFile) :
    PreparedFileS :=
  let prepared_root :=
    PreparedGroup.from_group env [] .file file.rootMode file.rootConfigs
  { root := prepared_root.withParent (.node []) }

/-- `config.py` lines 515-534, `PreparedGroup.compare`: gather every
child's awaited result (embedded as the `results` list), then either
force `error` when any configuration failed to prepare, or fold with
`_summarize_result_severity` under the group's own mode. -/
def PreparedGroup.compareResult (mode : String)
    (prepare_failures : List FailedConfiguration)
    (results : List Result) : Result :=
  if prepare_failures.isEmpty then
    { severity :=
        _summarize_result_severity mode (results.map ResultEntry.result),
      reason := none }
  else
    { severity := .error,
      reason := some "At least one configuration failed to initialize" }

/-- `config.py` lines 410-427, `PreparedConfiguration.compare` (the
terminal-node fold): gather every leaf's awaited result, then either
force `error` when any leaf failed to prepare, or fold with
`_summarize_result_severity` under `GroupResultMode.all_`,
unconditionally. -/
def PreparedConfiguration.compareResult (prepare_failures : List Exn)
    (results : List Result) : Result :=
  if prepare_failures.isEmpty then
    { severity :=
        _summarize_result_severity GroupResultMode.all_
          (results.map ResultEntry.result),
      reason := none }
  else
    { severity := .error,
      reason := some "At least one configuration failed to initialize" }

mutual

/-- The parent back-reference invariant below a node: every direct child
(prepared sub-configuration, `FailedConfiguration` entry, or leaf
comparison) holds this node's own identity as its `parent`, recursively
throughout the subtree. -/
def Prepared.linksOk : Prepared → Bool
  | .group s _ _ cs fs =>
    childrenLinksOk s cs && fs.all fun f => decide (f.parent = s)
  | .deviceCfg s _ _ ls _ => ls.all fun l => decide (l.parent = s)
  | .pvCfg s _ ls _ => ls.all fun l => decide (l.parent = s)
  | .toolCfg s _ _ ls _ => ls.all fun l => decide (l.parent = s)

/-- `Prepared.linksOk` over a list of children of the node `s`. -/
def childrenLinksOk (s : PRef) : List Prepared → Bool
  | [] => true
  | c :: rest =>
    (decide (c.parentRef = s) && c.linksOk) && childrenLinksOk s rest

end

section SeverityLemmas

/-- `Severity.max` keeps its left argument below the result. -/
theorem Severity.toNat_le_max_left :
    ∀ a b : Severity, a.toNat ≤ (Severity.max a b).toNat := by
  intro a b
  unfold Severity.max
  split <;> omega

/-- `Severity.max` keeps its right argument below the result. -/
theorem Severity.toNat_le_max_right :
    ∀ a b : Severity, b.toNat ≤ (Severity.max a b).toNat := by
  intro a b
  unfold Severity.max
  split <;> omega

/-- `Severity.max` returns one of its arguments. -/
theorem Severity.max_eq_or (a b : Severity) :
    Severity.max a b = a ∨ Severity.max a b = b := by
  unfold Severity.max
  split
  · exact Or.inr rfl
  · exact Or.inl rfl

/-- `Severity.min` stays below its left argument. -/
theorem Severity.min_toNat_le_left :
    ∀ a b : Severity, (Severity.min a b).toNat ≤ a.toNat := by
  intro a b
  unfold Severity.min
  split <;> omega

/-- `Severity.min` stays below its right argument. -/
theorem Severity.min_toNat_le_right :
    ∀ a b : Severity, (Severity.min a b).toNat ≤ b.toNat := by
  intro a b
  unfold Severity.min
  split <;> omega

/-- `Severity.min` returns one of its arguments. -/
theorem Severity.min_eq_or (a b : Severity) :
    Severity.min a b = a ∨ Severity.min a b = b := by
  unfold Severity.min
  split
  · exact Or.inl rfl
  · exact Or.inr rfl

/-- The initial accumulator stays below a `Severity.max` fold. -/
theorem foldl_max_init_le (l : List Severity) :
    ∀ b : Severity, b.toNat ≤ (l.foldl Severity.max b).toNat := by
  induction l with
  | nil => intro b; exact Nat.le_refl _
  | cons s t ih =>
    intro b
    exact Nat.le_trans (Severity.toNat_le_max_left b s) (ih (Severity.max b s))

/-- Every member of the list stays below a `Severity.max` fold. -/
theorem mem_toNat_le_foldl_max (l : List Severity) :
    ∀ b : Severity, ∀ s ∈ l, s.toNat ≤ (l.foldl Severity.max b).toNat := by
  induction l with
  | nil => intro b s hs; cases hs
  | cons x t ih =>
    intro b s hs
    rcases List.mem_cons.mp hs with h | h
    · subst h
      exact Nat.le_trans (Severity.toNat_le_max_right b s)
        (foldl_max_init_le t (Severity.max b s))
    · exact ih (Severity.max b x) s h

/-- A `Severity.max` fold returns its initial accumulator or a member. -/
theorem foldl_max_mem (l : List Severity) :
    ∀ b : Severity, l.foldl Severity.max b = b ∨ l.foldl Severity.max b ∈ l := by
  induction l with
  | nil => intro b; exact Or.inl rfl
  | cons x t ih =>
    intro b
    rcases ih (Severity.max b x) with h | h
    · rw [List.foldl_cons, h]
      rcases Severity.max_eq_or b x with h2 | h2
      · exact Or.inl h2
      · exact Or.inr (by rw [h2]; exact List.mem_cons_self x t)
    · exact Or.inr (List.mem_cons_of_mem x h)

/-- A `Severity.min` fold stays below its initial accumulator. -/
theorem foldl_min_le_init (l : List Severity) :
    ∀ b : Severity, (l.foldl Severity.min b).toNat ≤ b.toNat := by
  induction l with
  | nil => intro b; exact Nat.le_refl _
  | cons s t ih =>
    intro b
    exact Nat.le_trans (ih (Severity.min b s)) (Severity.min_toNat_le_left b s)

/-- A `Severity.min` fold stays below every member of the list. -/
theorem foldl_min_le_mem (l : List Severity) :
    ∀ b : Severity, ∀ s ∈ l, (l.foldl Severity.min b).toNat ≤ s.toNat := by
  induction l with
  | nil => intro b s hs; cases hs
  | cons x t ih =>
    intro b s hs
    rcases List.mem_cons.mp hs with h | h
    · subst h
      exact Nat.le_trans (foldl_min_le_init t (Severity.min b s))
        (Severity.min_toNat_le_right b s)
    · exact ih (Severity.min b x) s h

/-- A `Severity.min` fold returns its initial accumulator or a member. -/
theorem foldl_min_mem (l : List Severity) :
    ∀ b : Severity, l.foldl Severity.min b = b ∨ l.foldl Severity.min b ∈ l := by
  induction l with
  | nil => intro b; exact Or.inl rfl
  | cons x t ih =>
    intro b
    rcases ih (Severity.min b x) with h | h
    · rw [List.foldl_cons, h]
      rcases Severity.min_eq_or b x with h2 | h2
      · exact Or.inl h2
      · exact Or.inr (by rw [h2]; exact List.mem_cons_self x t)
    · exact Or.inr (List.mem_cons_of_mem x h)

end SeverityLemmas

/-- A `Severity.max` fold of a nonempty list started at the bottom
element `success` is a member of the list. -/
theorem foldl_max_bot_mem (l : List Severity) (hne : l ≠ []) :
    l.foldl Severity.max .success ∈ l := by
  cases l with
  | nil => exact absurd rfl hne
  | cons x t =>
    have hx : Severity.max .success x = x := by cases x <;> rfl
    rw [List.foldl_cons, hx]
    rcases foldl_max_mem t x with h | h
    · rw [h]
      exact List.mem_cons_self x t
    · exact List.mem_cons_of_mem x h

/-- A `Severity.min` fold of a nonempty list started at the top element
`internal_error` is a member of the list. -/
theorem foldl_min_top_mem (l : List Severity) (hne : l ≠ []) :
    l.foldl Severity.min .internal_error ∈ l := by
  cases l with
  | nil => exact absurd rfl hne
  | cons x t =>
    have hx : Severity.min .internal_error x = x := by cases x <;> rfl
    rw [List.foldl_cons, hx]
    rcases foldl_min_mem t x with h | h
    · rw [h]
      exact List.mem_cons_self x t
    · exact List.mem_cons_of_mem x h

/-- When no entry is absent or an exception, `_summarize_result_severity`
reduces to the mode dispatch over the extracted severities. -/
theorem summarize_of_no_absent (mode : String) (results : List ResultEntry)
    (h : results.any (fun r => r.isAbsentOrException) = false) :
    _summarize_result_severity mode results =
      (if mode = GroupResultMode.all_ then
        get_maximum_severity (results.filterMap ResultEntry.severity?)
      else if mode = GroupResultMode.any_ then
        get_minimum_severity (results.filterMap ResultEntry.severity?)
      else
        .internal_error) := by
  unfold _summarize_result_severity
  rw [h]
  simp

/-- C1: for every mode and every sequence of entries each of which is a
`Result`, an exception, or absent (`None`), `_summarize_result_severity`
returns `Severity.error` whenever at least one entry is an exception or
absent; otherwise it returns the maximum child severity when the mode is
ALL (an upper bound on all child severities that is itself one of them),
the minimum child severity when the mode is ANY, and
`Severity.internal_error` for any unrecognized mode value. -/
theorem C1_summarize_result_severity (mode : String)
    (results : List ResultEntry) :
    ((∃ e ∈ results, e.isAbsentOrException = true) →
      _summarize_result_severity mode results = .error)
    ∧ ((∀ e ∈ results, e.isAbsentOrException = false) →
        (mode = GroupResultMode.all_ →
          (∀ s ∈ results.filterMap ResultEntry.severity?,
            s.toNat ≤ (_summarize_result_severity mode results).toNat)
          ∧ (results.filterMap ResultEntry.severity? ≠ [] →
              _summarize_result_severity mode results
                ∈ results.filterMap ResultEntry.severity?))
        ∧ (mode = GroupResultMode.any_ →
          (∀ s ∈ results.filterMap ResultEntry.severity?,
            (_summarize_result_severity mode results).toNat ≤ s.toNat)
          ∧ (results.filterMap ResultEntry.severity? ≠ [] →
              _summarize_result_severity mode results
                ∈ results.filterMap ResultEntry.severity?))
        ∧ (mode ≠ GroupResultMode.all_ → mode ≠ GroupResultMode.any_ →
            _summarize_result_severity mode results = .internal_error)) := by
  constructor
  · rintro ⟨e, he, hex⟩
    have hany : results.any (fun r => r.isAbsentOrException) = true :=
      List.any_eq_true.mpr ⟨e, he, hex⟩
    unfold _summarize_result_severity
    rw [hany]
    simp
  · intro hnone
    have hany : results.any (fun r => r.isAbsentOrException) = false := by
      rw [List.any_eq_false]
      intro x hx
      simp [hnone x hx]
    rw [summarize_of_no_absent mode results hany]
    refine ⟨?_, ?_, ?_⟩
    · intro hmode
      subst hmode
      rw [if_pos rfl]
      constructor
      · intro s hs
        exact mem_toNat_le_foldl_max _ _ s hs
      · intro hne
        exact foldl_max_bot_mem _ hne
    · intro hmode
      subst hmode
      rw [if_neg (by decide), if_pos rfl]
      constructor
      · intro s hs
        exact foldl_min_le_mem _ _ s hs
      · intro hne
        exact foldl_min_top_mem _ hne
    · intro h1 h2
      rw [if_neg h1, if_neg h2]

/-- Witness for C1 at concrete inputs: an absent entry forces `error`; on
exception-free entries ALL mode bounds and realizes the child severities,
ANY mode is bounded by them, and an unrecognized mode yields
`internal_error`. -/
theorem C1_summarize_result_severity_witness :
    _summarize_result_severity GroupResultMode.all_
        [.result {}, .pynone] = .error
    ∧ Severity.warning.toNat ≤
        (_summarize_result_severity GroupResultMode.all_
          [.result { severity := .warning }, .result { severity := .error }]).toNat
    ∧ _summarize_result_severity GroupResultMode.all_
          [.result { severity := .warning }, .result { severity := .error }]
        ∈ ([ResultEntry.result { severity := .warning },
            .result { severity := .error }].filterMap ResultEntry.severity?)
    ∧ (_summarize_result_severity GroupResultMode.any_
          [.result { severity := .warning }, .result { severity := .error }]).toNat
        ≤ Severity.warning.toNat
    ∧ _summarize_result_severity "bogus"
        [.result { severity := .warning }] = .internal_error := by
  refine ⟨?_, ?_, ?_, ?_, ?_⟩
  · exact (C1_summarize_result_severity GroupResultMode.all_
      [.result {}, .pynone]).1 ⟨.pynone, by decide, rfl⟩
  · exact (((C1_summarize_result_severity GroupResultMode.all_
      [.result { severity := .warning }, .result { severity := .error }]).2
        (by decide)).1 rfl).1 .warning (by decide)
  · exact (((C1_summarize_result_severity GroupResultMode.all_
      [.result { severity := .warning }, .result { severity := .error }]).2
        (by decide)).1 rfl).2 (by decide)
  · exact (((C1_summarize_result_severity GroupResultMode.any_
      [.result { severity := .warning }, .result { severity := .error }]).2
        (by decide)).2.1 rfl).1 .warning (by decide)
  · exact (((C1_summarize_result_severity "bogus"
      [.result { severity := .warning }]).2
        (by decide)).2.2 (by decide) (by decide))

/-- `List.any` is invariant under permutation. -/
theorem perm_any_eq {α : Type} (p : α → Bool) {l₁ l₂ : List α}
    (h : l₁.Perm l₂) : l₁.any p = l₂.any p := by
  cases hb : l₂.any p
  · rw [List.any_eq_false] at hb ⊢
    intro x hx
    exact hb x (h.mem_iff.mp hx)
  · rw [List.any_eq_true] at hb ⊢
    obtain ⟨x, hx, hpx⟩ := hb
    exact ⟨x, h.mem_iff.mpr hx, hpx⟩

/-- A `Severity.max` fold is invariant under permutation of the list. -/
theorem foldl_max_perm {l₁ l₂ : List Severity} (h : l₁.Perm l₂) :
    ∀ b : Severity, l₁.foldl Severity.max b = l₂.foldl Severity.max b := by
  induction h with
  | nil => intro b; rfl
  | cons x _ ih =>
    intro b
    rw [List.foldl_cons, List.foldl_cons]
    exact ih _
  | swap x y l =>
    intro b
    rw [List.foldl_cons, List.foldl_cons, List.foldl_cons, List.foldl_cons]
    have hswap : Severity.max (Severity.max b y) x
        = Severity.max (Severity.max b x) y := by
      cases b <;> cases x <;> cases y <;> rfl
    rw [hswap]
  | trans _ _ ih1 ih2 =>
    intro b
    exact (ih1 b).trans (ih2 b)

/-- A `Severity.min` fold is invariant under permutation of the list. -/
theorem foldl_min_perm {l₁ l₂ : List Severity} (h : l₁.Perm l₂) :
    ∀ b : Severity, l₁.foldl Severity.min b = l₂.foldl Severity.min b := by
  induction h with
  | nil => intro b; rfl
  | cons x _ ih =>
    intro b
    rw [List.foldl_cons, List.foldl_cons]
    exact ih _
  | swap x y l =>
    intro b
    rw [List.foldl_cons, List.foldl_cons, List.foldl_cons, List.foldl_cons]
    have hswap : Severity.min (Severity.min b y) x
        = Severity.min (Severity.min b x) y := by
      cases b <;> cases x <;> cases y <;> rfl
    rw [hswap]
  | trans _ _ ih1 ih2 =>
    intro b
    exact (ih1 b).trans (ih2 b)

/-- C8: for every mode and every sequence of results,
`_summarize_result_severity` is permutation-invariant — applying it to
any reordering of the same result sequence yields the same severity. -/
theorem C8_summarize_permutation_invariant (mode : String)
    {l₁ l₂ : List ResultEntry} (h : l₁.Perm l₂) :
    _summarize_result_severity mode l₁ = _summarize_result_severity mode l₂ := by
  have hany := perm_any_eq (fun r => r.isAbsentOrException) h
  cases ha : l₁.any (fun r => r.isAbsentOrException) with
  | true =>
    unfold _summarize_result_severity
    rw [ha, ← hany, ha]
    rfl
  | false =>
    have ha2 : l₂.any (fun r => r.isAbsentOrException) = false := by
      rw [← hany, ha]
    rw [summarize_of_no_absent mode l₁ ha, summarize_of_no_absent mode l₂ ha2]
    have hfm := h.filterMap ResultEntry.severity?
    by_cases h1 : mode = GroupResultMode.all_
    · rw [if_pos h1, if_pos h1]
      exact foldl_max_perm hfm _
    · rw [if_neg h1, if_neg h1]
      by_cases h2 : mode = GroupResultMode.any_
      · rw [if_pos h2, if_pos h2]
        exact foldl_min_perm hfm _
      · rw [if_neg h2, if_neg h2]

/-- Witness for C8 at a concrete permutation: swapping two entries (one
of them an exception) leaves the summarized severity unchanged. -/
theorem C8_summarize_permutation_witness :
    _summarize_result_severity GroupResultMode.any_
        [.result { severity := .warning }, .exc ⟨.valueError, "boom"⟩]
      = _summarize_result_severity GroupResultMode.any_
        [.exc ⟨.valueError, "boom"⟩, .result { severity := .warning }] :=
  C8_summarize_permutation_invariant GroupResultMode.any_
    (List.Perm.swap (ResultEntry.exc ⟨.valueError, "boom"⟩)
      (ResultEntry.result { severity := .warning }) [])

/-- C2: for every prepared group whose `prepare_failures` list is
non-empty, running `compare()` produces a result with severity exactly
`Severity.error`, regardless of the group's mode and of the severities its
children produce — even if every child's result is success. -/
theorem C2_group_prepare_failures_force_error (mode : String)
    (prepare_failures : List FailedConfiguration) (results : List Result)
    (h : prepare_failures ≠ []) :
    (PreparedGroup.compareResult mode prepare_failures results).severity
      = .error := by
  unfold PreparedGroup.compareResult
  rw [if_neg]
  intro hemp
  exact h (List.isEmpty_iff.mp hemp)

/-- Witness for C2: one preparation failure forces `error` on an
ANY-mode group even when every child result is success. -/
theorem C2_group_prepare_failures_witness :
    (PreparedGroup.compareResult GroupResultMode.any_
      [{ parent := .file, config := .pv [] [],
         reason := { severity := .error, reason := none } }]
      [{ severity := .success, reason := none }]).severity = .error :=
  C2_group_prepare_failures_force_error GroupResultMode.any_
    [{ parent := .file, config := .pv [] [],
       reason := { severity := .error, reason := none } }]
    [{ severity := .success, reason := none }]
    (List.cons_ne_nil _ _)

/-- The severities extracted from a list of genuine `Result` entries are
exactly the mapped severities, and no entry is absent or an exception. -/
theorem map_result_entries (results : List Result) :
    ((results.map ResultEntry.result).any
        (fun r => r.isAbsentOrException)) = false
    ∧ (results.map ResultEntry.result).filterMap ResultEntry.severity?
        = results.map Result.severity := by
  constructor
  · rw [List.any_eq_false]
    intro x hx
    obtain ⟨r, _, hr⟩ := List.mem_map.mp hx
    rw [← hr]
    simp [ResultEntry.isAbsentOrException]
  · induction results with
    | nil => rfl
    | cons r t ih =>
      simp only [List.map_cons, List.filterMap_cons]
      rw [ih]
      rfl

/-- C9: for every terminal (non-group) prepared configuration node with
no preparation failures, `compare()` folds its leaf results with the ALL
mode — the maximum severity — unconditionally; the fold takes no mode at
all (terminal configurations carry none), so no configurable mode is ever
consulted. -/
theorem C9_terminal_compare_uses_all_mode (results : List Result) :
    PreparedConfiguration.compareResult [] results
      = { severity := get_maximum_severity (results.map Result.severity),
          reason := none } := by
  unfold PreparedConfiguration.compareResult
  rw [if_pos (show (List.isEmpty ([] : List Exn)) = true from rfl)]
  obtain ⟨hany, hsev⟩ := map_result_entries results
  rw [summarize_of_no_absent _ _ hany, if_pos rfl, hsev]

/-- C3: for every prepared leaf comparison, if data acquisition raises a
timeout/connection-class error then `compare()` returns a result whose
severity equals the comparison's configured `if_disconnected` severity,
with a reason naming the identifier; if acquisition raises any other
exception, `compare()` returns severity `internal_error` with a reason
containing the identifier, the comparison, and the exception's class and
message. -/
theorem C3_leaf_acquisition_errors (identifier : String)
    (comparison : Comparison) (sub : Value → Except Exn Result) (ex : Exn) :
    (ex.cls.isTimeoutOrConnection = true →
      PreparedComparison.compareResult identifier comparison sub (.raises ex)
        = { severity := comparison.if_disconnected,
            reason :=
              some ("Unable to retrieve data for comparison: "
                ++ identifier) })
    ∧ (ex.cls.isTimeoutOrConnection = false →
      PreparedComparison.compareResult identifier comparison sub (.raises ex)
        = { severity := .internal_error,
            reason :=
              some ("Getting data for " ++ pyRepr identifier
                ++ " comparison " ++ comparison.reprStr ++ " raised "
                ++ ex.cls.name ++ ": " ++ ex.msg) }) := by
  constructor
  · intro h
    simp only [PreparedComparison.compareResult]
    rw [h]
    rfl
  · intro h
    simp only [PreparedComparison.compareResult]
    rw [h]
    rfl

/-- Witness for C3: a `TimeoutError` yields the configured
`if_disconnected` severity (here `warning`), while a `ValueError` yields
`internal_error` with the full diagnostic reason. -/
theorem C3_leaf_acquisition_errors_witness :
    PreparedComparison.compareResult "MY:PV"
        { if_disconnected := .warning,
          compare := fun _ _ => .ok {} }
        (fun _ => .ok {}) (.raises ⟨.timeoutError, "timed out"⟩)
      = { severity := .warning,
          reason := some "Unable to retrieve data for comparison: MY:PV" }
    ∧ PreparedComparison.compareResult "MY:PV"
        { if_disconnected := .warning,
          compare := fun _ _ => .ok {} }
        (fun _ => .ok {}) (.raises ⟨.valueError, "bad value"⟩)
      = { severity := .internal_error,
          reason :=
            some ("Getting data for " ++ pyRepr "MY:PV"
              ++ " comparison Comparison() raised ValueError: bad value") } :=
  ⟨(C3_leaf_acquisition_errors "MY:PV"
      { if_disconnected := .warning, compare := fun _ _ => .ok {} }
      (fun _ => .ok {}) ⟨.timeoutError, "timed out"⟩).1 rfl,
   (C3_leaf_acquisition_errors "MY:PV"
      { if_disconnected := .warning, compare := fun _ _ => .ok {} }
      (fun _ => .ok {}) ⟨.valueError, "bad value"⟩).2 rfl⟩

/-- C6: for every prepared signal-comparison leaf, if the acquired data
is the explicit no-data sentinel (`None`) the leaf's result severity
equals the comparison's `if_disconnected` severity and the comparison
predicate is never invoked (the result is the same for every predicate
and is a fixed record free of it); for any non-sentinel value — including
falsy ones such as `0` or `""` — the predicate is invoked with the data
and the identifier, and its outcome is the leaf's. -/
theorem C6_signal_none_sentinel (identifier : String)
    (comparison : Comparison) (data : Value) :
    (data = .pynone →
      (∀ f : Value → String → Except Exn Result,
        PreparedSignalComparison._compare identifier
            { comparison with compare := f } data
          = PreparedSignalComparison._compare identifier comparison data)
      ∧ PreparedSignalComparison._compare identifier comparison data
          = .ok { severity := comparison.if_disconnected,
                  reason :=
                    some ("No data available for signal " ++ pyRepr identifier
                      ++ " in comparison " ++ comparison.reprStr) }
      ∧ (PreparedComparison.compareResult identifier comparison
            (PreparedSignalComparison._compare identifier comparison)
            (.value data)).severity
          = comparison.if_disconnected)
    ∧ (data ≠ .pynone →
        PreparedSignalComparison._compare identifier comparison data
          = comparison.compare data identifier) := by
  constructor
  · intro h
    subst h
    refine ⟨?_, ?_, ?_⟩
    · intro f
      rfl
    · rfl
    · rfl
  · intro h
    unfold PreparedSignalComparison._compare
    rw [if_neg h]

/-- Witness for C6: at the sentinel `None`, the leaf yields the
configured `if_disconnected` severity (here `warning`) for any predicate;
at the valid falsy value `0`, the predicate runs and its result (here
`success` with a marker reason) is returned. -/
theorem C6_signal_none_sentinel_witness :
    PreparedSignalComparison._compare "dev.sig"
        { ({ if_disconnected := .warning,
             compare := fun _ _ => .ok {} } : Comparison) with
          compare := fun _ _ => .ok { severity := .error } } .pynone
      = PreparedSignalComparison._compare "dev.sig"
        { if_disconnected := .warning,
          compare := fun _ _ => .ok {} } .pynone
    ∧ (PreparedComparison.compareResult "dev.sig"
        { if_disconnected := .warning,
          compare := fun _ _ => .ok {} }
        (PreparedSignalComparison._compare "dev.sig"
          { if_disconnected := .warning,
            compare := fun _ _ => .ok {} })
        (.value .pynone)).severity = .warning
    ∧ PreparedSignalComparison._compare "dev.sig"
        { if_disconnected := .warning,
          compare := fun _ i => .ok { reason := some i } } (.int 0)
      = .ok { reason := some "dev.sig" } :=
  ⟨((C6_signal_none_sentinel "dev.sig"
      { if_disconnected := .warning, compare := fun _ _ => .ok {} }
      .pynone).1 rfl).1 (fun _ _ => .ok { severity := .error }),
   ((C6_signal_none_sentinel "dev.sig"
      { if_disconnected := .warning, compare := fun _ _ => .ok {} }
      .pynone).1 rfl).2.2,
   (C6_signal_none_sentinel "dev.sig"
      { if_disconnected := .warning,
        compare := fun _ i => .ok { reason := some i } }
      (.int 0)).2 (by decide)⟩

/-- C7: for every prepared tool-comparison leaf, if looking up the leaf's
configured result key in the tool's result bundle fails with a
key-not-found error, the leaf returns (rather than raising out of the
leaf — the outcome is a normal `.ok` result) a result whose severity
equals the comparison's configured `severity_on_failure`. -/
theorem C7_tool_missing_key (identifier : String) (comparison : Comparison)
    (toolStr nameStr : String) (data : List (String × Value))
    (h : get_result_value_by_key data identifier = none) :
    PreparedToolComparison._compare identifier comparison toolStr nameStr data
      = .ok { severity := comparison.severity_on_failure,
              reason :=
                some ("Provided key is invalid for tool result " ++ toolStr
                  ++ " " ++ pyRepr identifier ++ " (" ++ nameStr ++ "): "
                  ++ pyRepr identifier ++ " (in comparison "
                  ++ comparison.reprStr ++ ")") } := by
  unfold PreparedToolComparison._compare
  rw [h]

/-- Witness for C7: an empty result bundle has no `reachable` key, and the
leaf yields the configured `severity_on_failure` (here `warning`). -/
theorem C7_tool_missing_key_witness :
    PreparedToolComparison._compare "reachable"
        { severity_on_failure := .warning,
          compare := fun _ _ => .ok {} }
        "Ping()" "None" []
      = .ok { severity := .warning,
              reason :=
                some ("Provided key is invalid for tool result Ping() "
                  ++ pyRepr "reachable" ++ " (None): "
                  ++ pyRepr "reachable"
                  ++ " (in comparison Comparison())") } :=
  C7_tool_missing_key "reachable"
    { severity_on_failure := .warning, compare := fun _ _ => .ok {} }
    "Ping()" "None" [] rfl

/-- One unfolding step of the `for config in group.configs` loop. -/
theorem prepareChildren_cons (env : PrepEnv) (path : List Nat) (i : Nat)
    (c : Config) (rest : List Config) :
    prepareChildren env path i (c :: rest)
      = match PreparedConfiguration.from_config env (path ++ [i])
          (.node path) c with
        | .inl p =>
          (p :: (prepareChildren env path (i + 1) rest).1,
           (prepareChildren env path (i + 1) rest).2)
        | .inr f =>
          ((prepareChildren env path (i + 1) rest).1,
           f :: (prepareChildren env path (i + 1) rest).2) := by
  simp only [prepareChildren]

/-- The loop of `PreparedGroup.from_group` partitions the enumerated
children into prepared successes and `FailedConfiguration`s, in order and
exhaustively. -/
theorem prepareChildren_spec (env : PrepEnv) (path : List Nat) :
    ∀ (cs : List Config) (i : Nat),
      (prepareChildren env path i cs).1
          = (List.enumFrom i cs).filterMap
              (fun p => (PreparedConfiguration.from_config env
                (path ++ [p.1]) (.node path) p.2).getLeft?)
      ∧ (prepareChildren env path i cs).2
          = (List.enumFrom i cs).filterMap
              (fun p => (PreparedConfiguration.from_config env
                (path ++ [p.1]) (.node path) p.2).getRight?)
      ∧ (prepareChildren env path i cs).1.length
          + (prepareChildren env path i cs).2.length = cs.length := by
  intro cs
  induction cs with
  | nil => exact fun i => ⟨rfl, rfl, rfl⟩
  | cons c rest ih =>
    intro i
    obtain ⟨ih1, ih2, ih3⟩ := ih (i + 1)
    rw [prepareChildren_cons]
    cases hres : PreparedConfiguration.from_config env (path ++ [i])
        (.node path) c with
    | inl p =>
      refine ⟨?_, ?_, ?_⟩
      · simp only [List.enumFrom, List.filterMap_cons, hres, Sum.getLeft?_inl]
        rw [ih1]
      · simp only [List.enumFrom, List.filterMap_cons, hres, Sum.getRight?_inl]
        rw [ih2]
      · simp only [List.length_cons]
        omega
    | inr f =>
      refine ⟨?_, ?_, ?_⟩
      · simp only [List.enumFrom, List.filterMap_cons, hres, Sum.getLeft?_inr]
        rw [ih1]
      · simp only [List.enumFrom, List.filterMap_cons, hres, Sum.getRight?_inr]
        rw [ih2]
      · simp only [List.length_cons]
        omega

/-- C4: for every configuration group, preparation processes every child
in order and never aborts — the prepared group's `configs` and
`prepare_failures` lists are exactly the in-order successes and
`FailedConfiguration`s of the children, and every child contributes
exactly one entry to exactly one of the two lists (their lengths sum to
the number of children), so a failing child never prevents the
preparation of its siblings. -/
theorem C4_group_preparation_never_aborts (env : PrepEnv)
    (path : List Nat) (parent : PRef) (mode : String) (cs : List Config) :
    PreparedGroup.from_group env path parent mode cs
      = .group (.node path) parent mode
          ((List.enumFrom 0 cs).filterMap
            (fun p => (PreparedConfiguration.from_config env
              (path ++ [p.1]) (.node path) p.2).getLeft?))
          ((List.enumFrom 0 cs).filterMap
            (fun p => (PreparedConfiguration.from_config env
              (path ++ [p.1]) (.node path) p.2).getRight?))
    ∧ ((List.enumFrom 0 cs).filterMap
          (fun p => (PreparedConfiguration.from_config env
            (path ++ [p.1]) (.node path) p.2).getLeft?)).length
        + ((List.enumFrom 0 cs).filterMap
            (fun p => (PreparedConfiguration.from_config env
              (path ++ [p.1]) (.node path) p.2).getRight?)).length
        = cs.length := by
  obtain ⟨h1, h2, h3⟩ := prepareChildren_spec env path cs 0
  constructor
  · show Prepared.group (.node path) parent mode
        (prepareChildren env path 0 cs).1 (prepareChildren env path 0 cs).2
      = _
    rw [h1, h2]
  · rw [← h1, ← h2]
    exact h3

/-- The `try/except` binding loop partitions the items into bound leaves
and binding exceptions, in order and exhaustively. -/
theorem partitionBind_spec {α : Type} (f : α → Except Exn PreparedLeaf)
    (l : List α) :
    (partitionBind f l).1 = l.filterMap (fun x => (f x).toOption)
    ∧ (partitionBind f l).2
        = l.filterMap (fun x =>
            match f x with
            | .error e => some e
            | .ok _ => none)
    ∧ (partitionBind f l).1.length + (partitionBind f l).2.length
        = l.length := by
  induction l with
  | nil => exact ⟨rfl, rfl, rfl⟩
  | cons x rest ih =>
    obtain ⟨ih1, ih2, ih3⟩ := ih
    have hok : ∀ p : PreparedLeaf,
        (Except.ok p : Except Exn PreparedLeaf).toOption = some p :=
      fun _ => rfl
    have herr : ∀ e : Exn,
        (Except.error e : Except Exn PreparedLeaf).toOption = none :=
      fun _ => rfl
    cases hx : f x with
    | ok p =>
      refine ⟨?_, ?_, ?_⟩
      · simp only [partitionBind, hx, List.filterMap_cons, hok]
        rw [ih1]
      · simp only [partitionBind, hx, List.filterMap_cons]
        rw [ih2]
      · simp only [partitionBind, hx, List.length_cons]
        omega
    | error e =>
      refine ⟨?_, ?_, ?_⟩
      · simp only [partitionBind, hx, List.filterMap_cons, herr]
        rw [ih1]
      · simp only [partitionBind, hx, List.filterMap_cons]
        rw [ih2]
      · simp only [partitionBind, hx, List.length_cons]
        omega

/-- The device × attribute × comparison iteration domain has exactly
`|devices| * Σ_attr (|by_attr[attr]| + |shared|)` items. -/
theorem deviceItems_length (devs : List String)
    (by_attr : List (String × List Comparison)) (shared : List Comparison) :
    (deviceItems devs by_attr shared).length
      = devs.length
          * ((by_attr.map (fun p => p.2.length + shared.length)).sum) := by
  induction devs with
  | nil => simp [deviceItems]
  | cons d t ih =>
    show ((by_attr.flatMap fun p => (p.2 ++ shared).map fun c => (d, p.1, c))
        ++ deviceItems t by_attr shared).length = _
    rw [List.length_append, ih]
    have hinner : ∀ ba : List (String × List Comparison),
        (ba.flatMap fun p => (p.2 ++ shared).map fun c => (d, p.1, c)).length
          = (ba.map (fun p => p.2.length + shared.length)).sum := by
      intro ba
      induction ba with
      | nil => rfl
      | cons q qt ihq =>
        simp only [List.flatMap_cons, List.length_append, List.map_cons,
          List.sum_cons, List.length_map, ihq]
    rw [hinner by_attr]
    simp only [List.length_cons]
    ring

/-- If some named device fails to resolve, the resolution loop returns
the first failing name with its exception. -/
theorem resolveDevices_error (env : PrepEnv) (devices : List String)
    (h : ∃ d ∈ devices, ∃ ex, env.get_happi_device_by_name d = .error ex) :
    ∃ e, resolveDevices env devices = .error e := by
  induction devices with
  | nil =>
    obtain ⟨d, hd, _⟩ := h
    cases hd
  | cons n rest ih =>
    cases hn : env.get_happi_device_by_name n with
    | error ex => exact ⟨(n, ex), by simp only [resolveDevices, hn]⟩
    | ok dev =>
      obtain ⟨d, hd, ex, hex⟩ := h
      rcases List.mem_cons.mp hd with h1 | h1
      · subst h1
        rw [hn] at hex
        cases hex
      · obtain ⟨e, he⟩ := ih ⟨d, h1, ex, hex⟩
        exact ⟨e, by simp only [resolveDevices, hn, he]⟩

/-- If every named device resolves, the resolution loop succeeds with one
resolved device per name. -/
theorem resolveDevices_ok (env : PrepEnv) (devices : List String)
    (h : ∀ d ∈ devices, ∃ dev, env.get_happi_device_by_name d = .ok dev) :
    ∃ devs, resolveDevices env devices = .ok devs
      ∧ devs.length = devices.length := by
  induction devices with
  | nil => exact ⟨[], rfl, rfl⟩
  | cons n rest ih =>
    obtain ⟨dev, hdev⟩ := h n (List.mem_cons_self n rest)
    obtain ⟨devs, hdevs, hlen⟩ :=
      ih fun d hd => h d (List.mem_cons_of_mem n hd)
    refine ⟨dev :: devs, ?_, by simp [hlen]⟩
    simp only [resolveDevices, hdev, hdevs]

/-- C5: for every `DeviceConfiguration` node, if resolving any one of its
named devices fails, preparation returns a whole-node
`FailedConfiguration` (no leaves are bound for the node); if every device
resolves, one leaf binding is attempted for every
device × attribute × comparison in that attribute's list plus the shared
list — the bound leaves and the per-leaf binding exceptions partition
that iteration domain exhaustively and in order, so a binding exception
never aborts the binding of the remaining leaves. -/
theorem C5_device_config_preparation (env : PrepEnv) (parent self : PRef)
    (devices : List String) (by_attr : List (String × List Comparison))
    (shared : List Comparison) :
    ((∃ d ∈ devices, ∃ ex, env.get_happi_device_by_name d = .error ex) →
      ∃ fc, PreparedDeviceConfiguration.from_config env parent self devices
          by_attr shared = .inr fc)
    ∧ ((∀ d ∈ devices, ∃ dev, env.get_happi_device_by_name d = .ok dev) →
      ∃ devs,
        PreparedDeviceConfiguration.from_config env parent self devices
            by_attr shared
          = .inl (.deviceCfg self parent devs
              ((deviceItems devs by_attr shared).filterMap
                (fun t => (PreparedSignalComparison.from_device env self
                  t.1 t.2.1 t.2.2).toOption))
              ((deviceItems devs by_attr shared).filterMap
                (fun t =>
                  match PreparedSignalComparison.from_device env self
                      t.1 t.2.1 t.2.2 with
                  | .error e => some e
                  | .ok _ => none)))
        ∧ devs.length = devices.length
        ∧ ((deviceItems devs by_attr shared).filterMap
              (fun t => (PreparedSignalComparison.from_device env self
                t.1 t.2.1 t.2.2).toOption)).length
            + ((deviceItems devs by_attr shared).filterMap
                (fun t =>
                  match PreparedSignalComparison.from_device env self
                      t.1 t.2.1 t.2.2 with
                  | .error e => some e
                  | .ok _ => none)).length
            = devices.length
                * ((by_attr.map (fun p => p.2.length + shared.length)).sum)) := by
  constructor
  · intro h
    obtain ⟨e, he⟩ := resolveDevices_error env devices h
    obtain ⟨devName, ex⟩ := e
    refine ⟨⟨parent, .device devices by_attr shared,
      { severity := .error,
        reason := some ("Failed to load happi device: " ++ devName) },
      some ex⟩, ?_⟩
    unfold PreparedDeviceConfiguration.from_config
    rw [he]
  · intro h
    obtain ⟨devs, hdevs, hlen⟩ := resolveDevices_ok env devices h
    obtain ⟨hp1, hp2, hp3⟩ := partitionBind_spec
      (fun t : String × String × Comparison =>
        PreparedSignalComparison.from_device env self t.1 t.2.1 t.2.2)
      (deviceItems devs by_attr shared)
    refine ⟨devs, ?_, hlen, ?_⟩
    · unfold PreparedDeviceConfiguration.from_config
      rw [hdevs]
      rw [← hp1, ← hp2]
    · rw [← hp1, ← hp2, hp3, deviceItems_length, hlen]

/-- Witness for C5: with a device database that cannot resolve `dev1`,
the node becomes a `FailedConfiguration`; with one that resolves every
name, the node is prepared as a `PreparedDeviceConfiguration`. -/
theorem C5_device_config_witness :
    (∃ fc, PreparedDeviceConfiguration.from_config
        { get_happi_device_by_name :=
            fun _ => .error ⟨.generic "SearchError", "not found"⟩,
          getattrSignal := fun _ _ => none,
          check_result_key := fun _ _ => .ok () }
        .file (.node [0]) ["dev1"] [] [] = .inr fc)
    ∧ (∃ p, PreparedDeviceConfiguration.from_config
        { get_happi_device_by_name := fun n => .ok n,
          getattrSignal := fun _ _ => some "sig",
          check_result_key := fun _ _ => .ok () }
        .file (.node [0]) ["dev1"] [("setpoint", [])]
        [{ compare := fun _ _ => .ok {} }] = .inl p) := by
  constructor
  · exact (C5_device_config_preparation
      { get_happi_device_by_name :=
          fun _ => .error ⟨.generic "SearchError", "not found"⟩,
        getattrSignal := fun _ _ => none,
        check_result_key := fun _ _ => .ok () }
      .file (.node [0]) ["dev1"] [] []).1
      ⟨"dev1", List.mem_cons_self _ _,
        ⟨.generic "SearchError", "not found"⟩, rfl⟩
  · obtain ⟨devs, heq, -, -⟩ := (C5_device_config_preparation
      { get_happi_device_by_name := fun n => .ok n,
        getattrSignal := fun _ _ => some "sig",
        check_result_key := fun _ _ => .ok () }
      .file (.node [0]) ["dev1"] [("setpoint", [])]
      [{ compare := fun _ _ => .ok {} }]).2
      (fun d _ => ⟨d, rfl⟩)
    exact ⟨_, heq⟩

/-- Every leaf successfully bound by the `try/except` loop satisfies any
property guaranteed by the binder on success. -/
theorem partitionBind_all {α : Type} (f : α → Except Exn PreparedLeaf)
    (P : PreparedLeaf → Bool)
    (h : ∀ x p, f x = .ok p → P p = true) :
    ∀ l : List α, ((partitionBind f l).1).all P = true := by
  intro l
  induction l with
  | nil => rfl
  | cons x rest ih =>
    cases hx : f x with
    | ok p =>
      simp only [partitionBind, hx, List.all_cons, ih, h x p hx,
        Bool.and_self]
    | error e =>
      simp only [partitionBind, hx]
      exact ih

/-- A leaf bound from a device attribute holds the binding node as its
parent. -/
theorem from_device_parent (env : PrepEnv) (self : PRef)
    (devName attr : String) (comparison : Comparison) (p : PreparedLeaf)
    (h : PreparedSignalComparison.from_device env self devName attr
      comparison = .ok p) : p.parent = self := by
  unfold PreparedSignalComparison.from_device at h
  cases hg : env.getattrSignal devName attr with
  | none => rw [hg] at h; cases h
  | some s => rw [hg] at h; cases h; rfl

/-- A leaf bound from a tool result key holds the binding node as its
parent. -/
theorem from_tool_parent (env : PrepEnv) (self : PRef)
    (toolName key : String) (comparison : Comparison) (p : PreparedLeaf)
    (h : PreparedToolComparison.from_tool env self toolName key
      comparison = .ok p) : p.parent = self := by
  unfold PreparedToolComparison.from_tool at h
  cases hg : env.check_result_key toolName key with
  | error e => rw [hg] at h; cases h
  | ok u => rw [hg] at h; cases h; rfl

mutual

/-- Every prepared node produced by `PreparedConfiguration.from_config`
carries the identity `path` it was prepared at, the `parent` it was
given, and an internally consistent subtree of parent back-references;
a `FailedConfiguration` result carries the given `parent`. -/
theorem from_config_links (env : PrepEnv) (path : List Nat) (parent : PRef)
    (c : Config) :
    (∀ p, PreparedConfiguration.from_config env path parent c = .inl p →
      p.selfRef = .node path ∧ p.parentRef = parent ∧ p.linksOk = true)
    ∧ (∀ f, PreparedConfiguration.from_config env path parent c = .inr f →
      f.parent = parent) := by
  cases c with
  | pv by_pv shared =>
    constructor
    · intro p hp
      cases hp
      refine ⟨rfl, rfl, ?_⟩
      simp only [Prepared.linksOk]
      exact partitionBind_all _ _
        (fun x q hq => by
          cases hq
          simp [PreparedSignalComparison.from_pvname]) _
    · intro f hf
      cases hf
  | tool t by_attr shared =>
    constructor
    · intro p hp
      cases hp
      refine ⟨rfl, rfl, ?_⟩
      simp only [Prepared.linksOk]
      exact partitionBind_all _ _
        (fun x q hq => by
          rw [from_tool_parent env (.node path) t x.1 x.2 q hq]
          simp) _
    · intro f hf
      cases hf
  | device devices by_attr shared =>
    constructor
    · intro p hp
      unfold PreparedConfiguration.from_config
        PreparedDeviceConfiguration.from_config at hp
      cases hres : resolveDevices env devices with
      | error e =>
        rw [hres] at hp
        obtain ⟨devName, ex⟩ := e
        cases hp
      | ok devs =>
        rw [hres] at hp
        cases hp
        refine ⟨rfl, rfl, ?_⟩
        simp only [Prepared.linksOk]
        exact partitionBind_all _ _
          (fun x q hq =>
            by rw [from_device_parent env (.node path) x.1 x.2.1 x.2.2 q hq]
               simp) _
    · intro f hf
      unfold PreparedConfiguration.from_config
        PreparedDeviceConfiguration.from_config at hf
      cases hres : resolveDevices env devices with
      | error e =>
        rw [hres] at hf
        obtain ⟨devName, ex⟩ := e
        cases hf
        rfl
      | ok devs =>
        rw [hres] at hf
        cases hf
  | group mode cs =>
    constructor
    · intro p hp
      have hchild := prepareChildren_links env path 0 cs
      cases hp
      refine ⟨rfl, rfl, ?_⟩
      simp only [Prepared.linksOk]
      rw [hchild.1, hchild.2]
      rfl
    · intro f hf
      cases hf

/-- All children produced by the group-preparation loop are consistently
linked to the group at `path`, and all `FailedConfiguration`s point back
to it. -/
theorem prepareChildren_links (env : PrepEnv) (path : List Nat) (i : Nat)
    (cs : List Config) :
    childrenLinksOk (.node path) (prepareChildren env path i cs).1 = true
    ∧ ((prepareChildren env path i cs).2.all
        fun f => decide (f.parent = PRef.node path)) = true := by
  cases cs with
  | nil => exact ⟨rfl, rfl⟩
  | cons c rest =>
    have hc := from_config_links env (path ++ [i]) (.node path) c
    have hrest := prepareChildren_links env path (i + 1) rest
    rw [prepareChildren_cons]
    cases hres : PreparedConfiguration.from_config env (path ++ [i])
        (.node path) c with
    | inl p =>
      obtain ⟨hself, hparent, hlinks⟩ := hc.1 p hres
      refine ⟨?_, hrest.2⟩
      simp only [childrenLinksOk, hlinks, hrest.1, hparent,
        Bool.and_true, decide_eq_true_eq]
    | inr f =>
      have hparent := hc.2 f hres
      refine ⟨hrest.1, ?_⟩
      simp only [List.all_cons, hparent, hrest.2, Bool.and_true,
        decide_eq_true_eq]

end

/-- C10: for every configuration file, `PreparedFile.from_config` sets
the root prepared group's `parent` back-reference to the root group
itself (a self-reference, `parent = self`), not to the enclosing
`PreparedFile`; every other node in the prepared tree points to its
enclosing node (`linksOk`), so the invariant parent-is-the-enclosing-node
fails exactly at the root. -/
theorem C10_root_parent_is_self (env : PrepEnv) (file : ConfigurationFile) :
    (PreparedFile.from_config env file).root.parentRef
        = (PreparedFile.from_config env file).root.selfRef
    ∧ (PreparedFile.from_config env file).root.parentRef ≠ PRef.file
    ∧ (PreparedFile.from_config env file).root.linksOk = true := by
  have h := prepareChildren_links env [] 0 file.rootConfigs
  refine ⟨rfl, ?_, ?_⟩
  · show PRef.node [] ≠ PRef.file
    decide
  · show Prepared.linksOk
      (.group (.node []) (.node []) file.rootMode
        (prepareChildren env [] 0 file.rootConfigs).1
        (prepareChildren env [] 0 file.rootConfigs).2) = true
    simp only [Prepared.linksOk]
    rw [h.1, h.2]
    rfl

end Atef
